import Mathlib

/-!
# Verification of the e-learning backend's enrollment / aggregation core

Shallow embedding of the school-management backend (Express + Mongoose).
Documents are Lean structures; each Mongo collection is a list of documents
(the store guarantees `_id` uniqueness, which appears below as `Nodup`
hypotheses where a proof needs it).  Service methods become pure functions
`DB → … → Except Err DB`; a thrown `ErrorResponse` / `Error` becomes
`Except.error` with the error kind from the spec's taxonomy (§7).
JS numbers are rationals; JS `Date` values are milliseconds as `Nat`.
-/

namespace Elearn

/-- Error taxonomy of spec §7.  `ErrorResponse(...,404)` and mongoose
"not found" throws map to `NotFound`; "already enrolled" / "already exists"
/ in-use-deletion throws map to `Conflict`; the classroom-full throw maps
to `CapacityExceeded`. -/
inductive Err where
  | NotFound
  | Conflict
  | CapacityExceeded
  deriving Repr, DecidableEq

/-- Fields of `models/Student.js` that the core logic reads
(`_id` and the `classrooms` reference array). -/
structure Student where
  sid : Nat
  classrooms : List Nat
  deriving Repr, DecidableEq

/-- Fields of `models/Classroom.js`: `_id`, `teacherId`, the `students` reference
array and the optional `maxCapacity` field. -/
structure Classroom where
  cid : Nat
  teacherId : Nat
  students : List Nat
  maxCapacity : Option Nat
  deriving Repr, DecidableEq

/-- Fields of `models/Teacher.js`: `_id`, `userId` back-reference and the owned
`classrooms` array. -/
structure Teacher where
  tid : Nat
  userId : Nat
  classrooms : List Nat
  deriving Repr, DecidableEq

/-- Role enum of `User.role`. -/
inductive Role where
  | student
  | teacher
  | admin
  deriving Repr, DecidableEq

/-- Fields of `models/User.js`: `_id` and `role` (the only fields the core mutates). -/
structure User where
  uid : Nat
  role : Role
  deriving Repr, DecidableEq

/-- Fields of `models/Grade.js` the aggregation logic reads. -/
structure Grade where
  studentId : Nat
  classroomId : Nat
  score : ℚ
  maxScore : ℚ
  weightage : ℚ
  assignmentType : String
  deriving Repr, DecidableEq

/-- One embedded per-student sub-record of an Attendance document
(`AttendanceRecordSchema`). -/
structure ARecord where
  studentId : Nat
  status : String
  deriving Repr, DecidableEq

/-- Fields of `models/Attendance.js`: `_id`, `classroomId`, `date` (ms timestamp,
stored exactly as supplied), embedded `records`. -/
structure Attendance where
  aid : Nat
  classroomId : Nat
  date : Nat
  records : List ARecord
  deriving Repr, DecidableEq

/-- The document store: one list per collection. -/
structure DB where
  users : List User
  teachers : List Teacher
  students : List Student
  classrooms : List Classroom
  grades : List Grade
  attendances : List Attendance
  deriving Repr, DecidableEq

/-! ## Store primitives

`findById` is `List.find?` on the `_id` field; `findByIdAndUpdate` /
`doc.save()` rewrite the (unique) document with that `_id`, embedded as
replace-the-first-match. -/

/-- Replace the first element with key `i` by its image under `f`
(a by-`_id` document update; `_id`s are unique in the store). -/
def setBy (key : α → Nat) (f : α → α) (i : Nat) : List α → List α
  | [] => []
  | a :: as => if key a = i then f a :: as else a :: setBy key f i as

def findStudent (db : DB) (i : Nat) : Option Student :=
  db.students.find? (fun s => s.sid == i)

def findClassroom (db : DB) (i : Nat) : Option Classroom :=
  db.classrooms.find? (fun c => c.cid == i)

def findTeacher (db : DB) (i : Nat) : Option Teacher :=
  db.teachers.find? (fun t => t.tid == i)

def findUser (db : DB) (i : Nat) : Option User :=
  db.users.find? (fun u => u.uid == i)

def setStudent (db : DB) (i : Nat) (f : Student → Student) : DB :=
  { db with students := setBy Student.sid f i db.students }

def setClassroom (db : DB) (i : Nat) (f : Classroom → Classroom) : DB :=
  { db with classrooms := setBy Classroom.cid f i db.classrooms }

def setTeacher (db : DB) (i : Nat) (f : Teacher → Teacher) : DB :=
  { db with teachers := setBy Teacher.tid f i db.teachers }

def setUser (db : DB) (i : Nat) (f : User → User) : DB :=
  { db with users := setBy User.uid f i db.users }

/-! ## Classroom model methods -/

/-- Embeds `ClassroomSchema.methods.isAtCapacity` (`models/Classroom.js:94-97`):
`if (!this.maxCapacity) return false; return this.students.length >= this.maxCapacity;`.
JS truthiness: an absent `maxCapacity` *and* `maxCapacity === 0` are both
falsy, so both mean "unlimited". -/
def Classroom.isAtCapacity (c : Classroom) : Bool :=
  match c.maxCapacity with
  | none => false
  | some m => if m = 0 then false else decide (c.students.length ≥ m)

/-! ## studentService.js -/

/-- Embeds `StudentService.enrollInClassroom` (`services/studentService.js:119-149`).
Looks up both documents (404 if absent), rejects an already-enrolled
student (400 Conflict), rejects a full classroom (400 CapacityExceeded),
then pushes the mutual references and saves both documents. -/
def enrollInClassroom (db : DB) (studentId classroomId : Nat) : Except Err DB :=
  match findStudent db studentId with
  | none => .error .NotFound
  | some _ =>
    match findClassroom db classroomId with
    | none => .error .NotFound
    | some classroom =>
      if classroom.students.contains studentId then
        .error .Conflict
      else if classroom.isAtCapacity then
        .error .CapacityExceeded
      else
        .ok ((setClassroom (setStudent db studentId
              (fun s => { s with classrooms := s.classrooms ++ [classroomId] }))
              classroomId
              (fun c => { c with students := c.students ++ [studentId] })))

/-- Embeds `StudentService.withdrawFromClassroom` (`services/studentService.js:157-182`).
404 for a missing document, 400 Conflict when the student is not in the
classroom's student set, else filters the mutual references out and saves. -/
def withdrawFromClassroom (db : DB) (studentId classroomId : Nat) : Except Err DB :=
  match findStudent db studentId with
  | none => .error .NotFound
  | some _ =>
    match findClassroom db classroomId with
    | none => .error .NotFound
    | some classroom =>
      if classroom.students.contains studentId then
        .ok ((setClassroom (setStudent db studentId
              (fun s => { s with classrooms := s.classrooms.filter (fun i => i ≠ classroomId) }))
              classroomId
              (fun c => { c with students := c.students.filter (fun i => i ≠ studentId) })))
      else
        .error .Conflict

/-! ## classroomService.js -/

/-- Embeds `ClassroomService.addStudentToClassroom` (`services/classroomService.js:201-254`).
Note the order of checks: classroom lookup, **capacity**, student lookup,
then the already-enrolled check; mutual `$push` updates inside one
transaction. -/
def addStudentToClassroom (db : DB) (classroomId studentId : Nat) : Except Err DB :=
  match findClassroom db classroomId with
  | none => .error .NotFound
  | some classroom =>
    if classroom.isAtCapacity then
      .error .CapacityExceeded
    else
      match findStudent db studentId with
      | none => .error .NotFound
      | some _ =>
        if classroom.students.contains studentId then
          .error .Conflict
        else
          .ok ((setStudent (setClassroom db classroomId
                (fun c => { c with students := c.students ++ [studentId] }))
                studentId
                (fun s => { s with classrooms := s.classrooms ++ [classroomId] })))

/-- Embeds `ClassroomService.removeStudentFromClassroom`
(`services/classroomService.js:262-306`).  Looks up both documents
(NotFound if absent) and then `$pull`s the mutual references
unconditionally — there is **no** is-enrolled check. -/
def removeStudentFromClassroom (db : DB) (classroomId studentId : Nat) : Except Err DB :=
  match findClassroom db classroomId with
  | none => .error .NotFound
  | some _ =>
    match findStudent db studentId with
    | none => .error .NotFound
    | some _ =>
      .ok ((setStudent (setClassroom db classroomId
            (fun c => { c with students := c.students.filter (fun i => i ≠ studentId) }))
            studentId
            (fun s => { s with classrooms := s.classrooms.filter (fun i => i ≠ classroomId) })))

/-- Embeds `ClassroomService.deleteClassroom` (`services/classroomService.js:156-193`).
Inside one transaction: `$pull` the classroom from its teacher's
`classrooms`, `$pull` it from the `classrooms` array of every student
listed in `classroom.students` (`updateMany` with `$in`), then delete the
classroom document.  The transaction makes the whole operation
all-or-nothing, which the `Except` result models. -/
def deleteClassroom (db : DB) (classroomId : Nat) : Except Err DB :=
  match findClassroom db classroomId with
  | none => .error .NotFound
  | some classroom =>
    let db₁ := setTeacher db classroom.teacherId
      (fun t => { t with classrooms := t.classrooms.filter (fun i => i ≠ classroomId) })
    let pullFromEnrolled : Student → Student := fun s =>
      if classroom.students.contains s.sid then
        { s with classrooms := s.classrooms.filter (fun i => i ≠ classroomId) }
      else s
    let db₂ := { db₁ with students := db₁.students.map pullFromEnrolled }
    .ok { db₂ with classrooms := db₂.classrooms.filter (fun c => c.cid ≠ classroomId) }

/-! ## gradeService.js -/

/-- JS `x.toFixed(2)` on the rationals produced here: round to two decimal
places (nearest; JS prints the decimal string, we keep the value). -/
def round2 (x : ℚ) : ℚ := (round (x * 100) : ℚ) / 100

/-- Percentage of one grade: `(grade.score / grade.maxScore) * 100`, the percentage of one grade. -/
def Grade.pct (g : Grade) : ℚ := g.score / g.maxScore * 100

/-- Query `Grade.find({ studentId, classroomId })`. -/
def gradesFor (db : DB) (studentId classroomId : Nat) : List Grade :=
  db.grades.filter (fun g => g.studentId == studentId && g.classroomId == classroomId)

/-- Embeds `GradeService.getStudentAverage` (`services/gradeService.js:95-116`).
Returns 0 on no matching grades, otherwise accumulates
`percentage * weightage` and `weightage` over the matches and divides,
guarding the division by `totalWeightage > 0`, with `toFixed(2)`. -/
def getStudentAverage (db : DB) (studentId classroomId : Nat) : ℚ :=
  let grades := gradesFor db studentId classroomId
  if grades.isEmpty then 0
  else
    let totalWeightedScore := (grades.map (fun g => g.pct * g.weightage)).sum
    let totalWeightage := (grades.map (fun g => g.weightage)).sum
    if totalWeightage > 0 then round2 (totalWeightedScore / totalWeightage) else 0

/-- Definition following the words of the spec sentence for C4, for the
refinement comparison with `getStudentAverage`: weighted average
`Σ(percentage_i × weightage_i) / Σ(weightage_i)` over all grades matching
`(studentId, classroomId)`, rounded to 2 decimal places, and 0 when no
matching grades exist. -/
def specWeightedAverage (db : DB) (studentId classroomId : Nat) : ℚ :=
  let gs := gradesFor db studentId classroomId
  if gs.isEmpty then 0
  else round2 (((gs.map (fun g => g.pct * g.weightage)).sum) /
    ((gs.map (fun g => g.weightage)).sum))

/-- Shape of the object returned by `getClassroomGradeStatistics`.
`assignmentTypes` is a JS object in insertion order: an association list. -/
structure GradeStats where
  averageScore : ℚ
  highestScore : ℚ
  lowestScore : ℚ
  assignmentCount : Nat
  assignmentTypes : List (String × Nat)
  deriving Repr, DecidableEq

/-- Step `assignmentTypes[t] ? assignmentTypes[t]++ : assignmentTypes[t] = 1`
on a JS object: bump the existing key in place or append a new one. -/
def bumpType : List (String × Nat) → String → List (String × Nat)
  | [], t => [(t, 1)]
  | (s, n) :: rest, t => if s = t then (s, n + 1) :: rest else (s, n) :: bumpType rest t

/-- Query `Grade.find({ classroomId })`. -/
def classGrades (db : DB) (classroomId : Nat) : List Grade :=
  db.grades.filter (fun g => g.classroomId == classroomId)

/-- Embeds `GradeService.getClassroomGradeStatistics` (`services/gradeService.js:165-209`).
Zeroed structure for an empty classroom; otherwise one pass accumulating
the percentage total, the running highest (initialised 0), the running
lowest (initialised 100) and the per-type counts, then `toFixed(2)` on the
three percentage outputs. -/
def getClassroomGradeStatistics (db : DB) (classroomId : Nat) : GradeStats :=
  let grades := classGrades db classroomId
  if grades.isEmpty then
    ⟨0, 0, 0, 0, []⟩
  else
    let totalPercentage := (grades.map Grade.pct).sum
    let highestScore := grades.foldl (fun h g => if g.pct > h then g.pct else h) 0
    let lowestScore := grades.foldl (fun l g => if g.pct < l then g.pct else l) 100
    let assignmentTypes := grades.foldl (fun m g => bumpType m g.assignmentType) []
    ⟨round2 (totalPercentage / grades.length), round2 highestScore,
      round2 lowestScore, grades.length, assignmentTypes⟩

/-! ## attendanceService.js -/

/-- Truncation `new Date(d).setHours(0,0,0,0)` on a ms timestamp: truncate to the
start of the calendar day. -/
def startOfDay (t : Nat) : Nat := t / 86400000 * 86400000

/-- Embeds `AttendanceService.createAttendance` (`services/attendanceService.js:417-442`
in the concatenated source).  Checks the classroom exists, then runs
`Attendance.findOne({classroomId, date: new Date(date).setHours(0,0,0,0)})`
— i.e. it compares the *truncated* incoming date against the *stored*
dates — and rejects on a hit; `Attendance.create` then stores the
document with its date exactly as supplied, subject to the unique
`{classroomId: 1, date: 1}` index of `models/Attendance.js:50` (an exact
(classroomId, date) pair, not a per-day key). -/
def createAttendance (db : DB) (newId classroomId date : Nat)
    (records : List ARecord) : Except Err DB :=
  match findClassroom db classroomId with
  | none => .error .NotFound
  | some _ =>
    if db.attendances.any (fun a => a.classroomId == classroomId &&
        a.date == startOfDay date) then
      .error .Conflict
    else if db.attendances.any (fun a => a.classroomId == classroomId &&
        a.date == date) then
      .error .Conflict
    else
      .ok { db with attendances := db.attendances ++ [⟨newId, classroomId, date, records⟩] }

/-! ## studentService.deleteStudent and teacherService.deleteTeacher -/

/-- The attendance clean-up loop of `deleteStudent`
(`services/studentService.js:383-395`) on one document: if it holds a
sub-record for the student, filter that sub-record out and delete the
whole document when nothing is left; documents without the student are
untouched. -/
def stripStudent (studentId : Nat) (a : Attendance) : Option Attendance :=
  if a.records.any (fun r => r.studentId == studentId) then
    let kept := a.records.filter (fun r => r.studentId ≠ studentId)
    if kept.isEmpty then none else some { a with records := kept }
  else some a

/-- Embeds `StudentService.deleteStudent` (`services/studentService.js:364-400`).
404 when missing; 400 Conflict while `student.classrooms.length > 0`;
otherwise `Grade.deleteMany({studentId})`, the attendance clean-up loop,
and removal of the student document. -/
def deleteStudent (db : DB) (studentId : Nat) : Except Err DB :=
  match findStudent db studentId with
  | none => .error .NotFound
  | some student =>
    if student.classrooms.length > 0 then .error .Conflict
    else
      .ok { db with
        grades := db.grades.filter (fun g => g.studentId ≠ studentId),
        attendances := db.attendances.filterMap (stripStudent studentId),
        students := db.students.filter (fun s => s.sid ≠ studentId) }

/-- Query `Classroom.countDocuments({ teacherId })`. -/
def classroomCount (db : DB) (teacherId : Nat) : Nat :=
  (db.classrooms.filter (fun c => c.teacherId == teacherId)).length

/-- Embeds `TeacherService.deleteTeacher` (`services/teacherService.js:228-255`).
404 when missing; 400 Conflict while the teacher owns classrooms;
otherwise, whenever the backing user exists, sets `user.role = 'student'`
unconditionally, then removes the teacher document. -/
def deleteTeacher (db : DB) (teacherId : Nat) : Except Err DB :=
  match findTeacher db teacherId with
  | none => .error .NotFound
  | some teacher =>
    if classroomCount db teacherId > 0 then .error .Conflict
    else
      let db₁ := match findUser db teacher.userId with
        | some _ => setUser db teacher.userId (fun u => { u with role := .student })
        | none => db
      .ok { db₁ with teachers := db₁.teachers.filter (fun t => t.tid ≠ teacherId) }

/-! ## Operation sequences (run to completion)

Each inbound request runs one service call to completion (spec §5); a call
that throws leaves the store as it was.  `RelOp` covers the operations the
relationship invariants quantify over. -/

/-- The operations of claim C1's sequences. -/
inductive EnrollOp where
  | enroll (studentId classroomId : Nat)
  | withdraw (studentId classroomId : Nat)
  deriving Repr, DecidableEq

/-- Run one enroll/withdraw request to completion; a thrown error leaves
the store unchanged. -/
def applyEnrollOp (db : DB) : EnrollOp → DB
  | .enroll s c =>
    match enrollInClassroom db s c with
    | .ok db' => db'
    | .error _ => db
  | .withdraw s c =>
    match withdrawFromClassroom db s c with
    | .ok db' => db'
    | .error _ => db

/-- Run a sequence of enroll/withdraw requests. -/
def runEnrollOps (db : DB) (ops : List EnrollOp) : DB :=
  ops.foldl applyEnrollOp db

/-- The operations of claim C2: enroll, withdraw, deleteClassroom. -/
inductive RelOp where
  | enroll (studentId classroomId : Nat)
  | withdraw (studentId classroomId : Nat)
  | deleteClass (classroomId : Nat)
  deriving Repr, DecidableEq

/-- Run one relationship-mutating request to completion. -/
def applyRelOp (db : DB) : RelOp → DB
  | .enroll s c =>
    match enrollInClassroom db s c with
    | .ok db' => db'
    | .error _ => db
  | .withdraw s c =>
    match withdrawFromClassroom db s c with
    | .ok db' => db'
    | .error _ => db
  | .deleteClass c =>
    match deleteClassroom db c with
    | .ok db' => db'
    | .error _ => db

/-! ## Invariants -/

/-- The capacity invariant on one classroom document, with the source's
"falsy capacity means unlimited" policy: no constraint when `maxCapacity`
is unset or 0, else `|students| ≤ maxCapacity`. -/
def Classroom.capOk (c : Classroom) : Bool :=
  match c.maxCapacity with
  | none => true
  | some m => if m = 0 then true else decide (c.students.length ≤ m)

/-- The capacity invariant over the store (claim C1, amended). -/
def CapOk (db : DB) : Prop := ∀ c ∈ db.classrooms, c.capOk = true

/-- Bidirectional referential consistency of claim C2: for every stored
student and every stored classroom,
`classroomId ∈ student.classrooms ↔ studentId ∈ classroom.students`. -/
def Sync (db : DB) : Prop :=
  ∀ s ∈ db.students, ∀ c ∈ db.classrooms, (c.cid ∈ s.classrooms ↔ s.sid ∈ c.students)

/-- Store well-formedness: `_id`s are unique per collection (a guarantee
of the document store). -/
def WF (db : DB) : Prop :=
  (db.students.map Student.sid).Nodup ∧ (db.classrooms.map Classroom.cid).Nodup

instance {ε α : Type} [DecidableEq ε] [DecidableEq α] : DecidableEq (Except ε α) := fun a b =>
  match a, b with
  | .ok x, .ok y => decidable_of_iff (x = y) (by simp)
  | .ok _, .error _ => isFalse (fun h => Except.noConfusion h)
  | .error _, .ok _ => isFalse (fun h => Except.noConfusion h)
  | .error x, .error y => decidable_of_iff (x = y) (by simp)

instance (db : DB) : Decidable (CapOk db) := by unfold CapOk; infer_instance

instance (db : DB) : Decidable (Sync db) := by unfold Sync; infer_instance

instance (db : DB) : Decidable (WF db) := by unfold WF; infer_instance

/-! ## Concrete stores used to instantiate the theorems -/

/-- Store for C1's witness: two students, one classroom with capacity 1. -/
def dbC1 : DB := ⟨[], [], [⟨1, []⟩, ⟨3, []⟩], [⟨2, 9, [], some 1⟩], [], []⟩

/-- Store for C1's counterexample: a classroom whose `maxCapacity` is the
(falsy) number 0 and an unenrolled student. -/
def dbCap0 : DB := ⟨[], [], [⟨1, []⟩], [⟨2, 9, [], some 0⟩], [], []⟩

/-- The store `enrollInClassroom dbCap0 1 2` produces. -/
def dbCap0' : DB := ⟨[], [], [⟨1, [2]⟩], [⟨2, 9, [1], some 0⟩], [], []⟩

/-- Store for C2's witness: one enrolled pair, in sync. -/
def dbC2 : DB := ⟨[], [⟨9, 70, [2]⟩], [⟨1, [2]⟩], [⟨2, 9, [1], none⟩], [], []⟩

/-- Store for C3's witness: student 1 enrolled in classroom 2 (capacity 3). -/
def dbC3 : DB := ⟨[], [], [⟨1, [2]⟩], [⟨2, 9, [1], some 3⟩], [], []⟩

/-- Store for C3's counterexample: student 1 enrolled in classroom 2 which
is at its capacity of 1. -/
def dbC3x : DB := ⟨[], [], [⟨1, [2]⟩], [⟨2, 9, [1], some 1⟩], [], []⟩

/-- Store for C4's witness: the spec's two grades
`{score:8,max:10,weight:2}` and `{score:18,max:20,weight:1}`. -/
def dbC4 : DB := ⟨[], [], [⟨1, [2]⟩], [⟨2, 9, [1], none⟩],
  [⟨1, 2, 8, 10, 2, "quiz"⟩, ⟨1, 2, 18, 20, 1, "exam"⟩], []⟩

/-- Store for C5's failing input: classroom 1 exists, no attendance yet. -/
def dbC5 : DB := ⟨[], [], [], [⟨1, 9, [], none⟩], [], []⟩

/-- A millisecond timestamp at 10:00 local time of some calendar day. -/
def tenAm : Nat := 86400000 * 20000 + 10 * 3600000

/-- A millisecond timestamp at 15:00 local time of the same calendar day. -/
def threePm : Nat := 86400000 * 20000 + 15 * 3600000

/-- `dbC5` after the first (10:00) attendance creation. -/
def dbC5a : DB := ⟨[], [], [], [⟨1, 9, [], none⟩], [],
  [⟨100, 1, tenAm, []⟩]⟩

/-- `dbC5a` after the second (15:00, same day) attendance creation. -/
def dbC5b : DB := ⟨[], [], [], [⟨1, 9, [], none⟩], [],
  [⟨100, 1, tenAm, []⟩, ⟨101, 1, threePm, []⟩]⟩

/-- Store for C6's witness: teacher 9 owns classroom 2 with students 1, 4;
student 5 is unrelated. -/
def dbC6 : DB := ⟨[], [⟨9, 70, [2]⟩], [⟨1, [2]⟩, ⟨4, [2]⟩, ⟨5, []⟩],
  [⟨2, 9, [1, 4], none⟩], [], []⟩

/-- Store for C7's witness: student 1 enrolled in classroom 2. -/
def dbC7 : DB := ⟨[], [], [⟨1, [2]⟩, ⟨4, []⟩], [⟨2, 9, [1], none⟩], [], []⟩

/-- Store for C7's counterexample: student 1 exists but is not enrolled in
classroom 2. -/
def dbC7x : DB := ⟨[], [], [⟨1, []⟩], [⟨2, 9, [], none⟩], [], []⟩

/-- Store for C8's witness: student 1 (no classrooms) with grades and
attendance sub-records; student 2 shares one attendance document. -/
def dbC8 : DB := ⟨[], [], [⟨1, []⟩, ⟨2, []⟩], [],
  [⟨1, 5, 8, 10, 1, "quiz"⟩, ⟨2, 5, 9, 10, 1, "quiz"⟩],
  [⟨1, 5, 0, [⟨1, "present"⟩]⟩, ⟨2, 5, 1, [⟨1, "late"⟩, ⟨2, "present"⟩]⟩,
   ⟨3, 5, 2, [⟨2, "absent"⟩]⟩]⟩

/-- Store for C9's witness: three grades in classroom 5, percentages 80,
90 and 50. -/
def dbC9 : DB := ⟨[], [], [], [],
  [⟨1, 5, 8, 10, 1, "quiz"⟩, ⟨2, 5, 18, 20, 1, "exam"⟩, ⟨1, 5, 5, 10, 1, "quiz"⟩], []⟩

/-- Store for C9's counterexample: two negative scores, so both stored
percentages are negative and none is an integer multiple of 1/100. -/
def dbC9x : DB := ⟨[], [], [], [],
  [⟨1, 5, -1, 4, 1, "quiz"⟩, ⟨1, 5, -1, 3, 1, "quiz"⟩], []⟩

/-- Store for C10's witness: teacher 3 (no classrooms) backed by user 7
whose role is `admin`. -/
def dbC10 : DB := ⟨[⟨7, Role.admin⟩], [⟨3, 7, []⟩], [], [], [], []⟩

/-! ## Generic facts about by-id lookup and update -/

theorem mem_setBy {α : Type} {key : α → Nat} {f : α → α} {l : List α} {i : Nat} {w x : α}
    (hw : l.find? (fun a => key a == i) = some w)
    (hx : x ∈ setBy key f i l) : x ∈ l ∨ x = f w := by
  induction l with
  | nil => simp [setBy] at hx
  | cons a as ih =>
    by_cases hk : key a = i
    · rw [List.find?_cons_of_pos _ (by simpa using hk)] at hw
      simp only [setBy, if_pos hk] at hx
      rcases List.mem_cons.mp hx with h | h
      · exact Or.inr (by rw [h, Option.some_inj.mp hw])
      · exact Or.inl (List.mem_cons_of_mem _ h)
    · rw [List.find?_cons_of_neg _ (by simpa using hk)] at hw
      simp only [setBy, if_neg hk] at hx
      rcases List.mem_cons.mp hx with h | h
      · exact Or.inl (by simp [h])
      · rcases ih hw h with h' | h'
        · exact Or.inl (List.mem_cons_of_mem _ h')
        · exact Or.inr h'

theorem find?_setBy_self {α : Type} {key : α → Nat} {f : α → α}
    (hf : ∀ a, key (f a) = key a) (l : List α) (i : Nat) :
    (setBy key f i l).find? (fun a => key a == i) =
      (l.find? (fun a => key a == i)).map f := by
  induction l with
  | nil => rfl
  | cons a as ih =>
    by_cases hk : key a = i
    · simp only [setBy, if_pos hk]
      rw [List.find?_cons_of_pos _ (by simp [hf a, hk]),
        List.find?_cons_of_pos _ (by simpa using hk)]
      rfl
    · simp only [setBy, if_neg hk]
      rw [List.find?_cons_of_neg _ (by simpa using hk),
        List.find?_cons_of_neg _ (by simpa using hk)]
      exact ih

theorem find?_eq_none_of_filter_ne {α : Type} (key : α → Nat) (l : List α) (i : Nat) :
    (l.filter (fun a => key a ≠ i)).find? (fun a => key a == i) = none := by
  refine List.find?_eq_none.mpr (fun x hx => ?_)
  have := (List.mem_filter.mp hx).2
  simpa using of_decide_eq_true this

theorem setBy_eq_map {α : Type} {key : α → Nat} (f : α → α) {l : List α}
    (hnd : (l.map key).Nodup) (i : Nat) :
    setBy key f i l = l.map (fun a => if key a = i then f a else a) := by
  induction l with
  | nil => rfl
  | cons a as ih =>
    simp only [List.map_cons, List.nodup_cons] at hnd
    by_cases hk : key a = i
    · simp only [setBy, if_pos hk, List.map_cons, if_pos hk]
      have : ∀ b ∈ as, (if key b = i then f b else b) = b := by
        intro b hb
        have : key b ≠ i := fun h => hnd.1 (by
          rw [hk, ← h]; exact List.mem_map_of_mem key hb)
        simp [this]
      rw [List.map_congr_left this]
      simp
    · simp only [setBy, if_neg hk, List.map_cons, if_neg hk, ih hnd.2]

theorem key_inj_of_nodup {α : Type} {key : α → Nat} {l : List α}
    (hnd : (l.map key).Nodup) {a b : α} (ha : a ∈ l) (hb : b ∈ l)
    (hk : key a = key b) : a = b :=
  List.inj_on_of_nodup_map hnd ha hb hk

theorem find?_key_facts {α : Type} {key : α → Nat} {l : List α} {i : Nat} {w : α}
    (hw : l.find? (fun a => key a == i) = some w) : w ∈ l ∧ key w = i :=
  ⟨List.mem_of_find?_eq_some hw, by simpa using List.find?_some hw⟩

/-! ## Capacity invariant (claim C1) -/

theorem capOk_iff (c : Classroom) :
    c.capOk = true ↔ ∀ m : Nat, c.maxCapacity = some m → 0 < m → c.students.length ≤ m := by
  rcases hm : c.maxCapacity with _ | m
  · simp [Classroom.capOk, hm]
  · by_cases h0 : m = 0
    · subst h0
      simp [Classroom.capOk, hm]
    · simp only [Classroom.capOk, hm, if_neg h0, decide_eq_true_eq, Option.some.injEq]
      constructor
      · rintro h m' rfl h'
        exact h
      · intro h
        exact h m rfl (Nat.pos_of_ne_zero h0)

theorem capOk_push {c : Classroom}
    (hfull : c.isAtCapacity = false) (x : Nat) :
    Classroom.capOk { c with students := c.students ++ [x] } = true := by
  rcases hm : c.maxCapacity with _ | m
  · simp [Classroom.capOk, hm]
  · by_cases h0 : m = 0
    · subst h0
      simp [Classroom.capOk, hm]
    · simp only [Classroom.isAtCapacity, hm, if_neg h0, decide_eq_false_iff_not,
        not_le] at hfull
      simp only [Classroom.capOk, hm, if_neg h0, decide_eq_true_eq, List.length_append,
        List.length_cons, List.length_nil]
      omega

theorem capOk_filter {c : Classroom} (hcap : c.capOk = true) (p : Nat → Bool) :
    Classroom.capOk { c with students := c.students.filter p } = true := by
  rcases hm : c.maxCapacity with _ | m
  · simp [Classroom.capOk, hm]
  · by_cases h0 : m = 0
    · subst h0
      simp [Classroom.capOk, hm]
    · simp only [Classroom.capOk, hm, if_neg h0, decide_eq_true_eq] at hcap ⊢
      exact le_trans (List.length_filter_le p c.students) hcap

theorem capOk_enroll_ok {db db' : DB} {sid cid : Nat}
    (h : CapOk db) (henr : enrollInClassroom db sid cid = .ok db') : CapOk db' := by
  cases hfs : findStudent db sid with
  | none => simp [enrollInClassroom, hfs] at henr
  | some st =>
    cases hfc : findClassroom db cid with
    | none => simp [enrollInClassroom, hfs, hfc] at henr
    | some ct =>
      by_cases hmem : sid ∈ ct.students
      · simp [enrollInClassroom, hfs, hfc, hmem] at henr
      · cases hful : ct.isAtCapacity with
        | true => simp [enrollInClassroom, hfs, hfc, hmem, hful] at henr
        | false =>
          simp [enrollInClassroom, hfs, hfc, hmem, hful] at henr
          subst henr
          intro c' hc'
          rcases mem_setBy (w := ct) hfc hc' with h' | h'
          · exact h c' h'
          · subst h'
            exact capOk_push hful sid

theorem capOk_withdraw_ok {db db' : DB} {sid cid : Nat}
    (h : CapOk db) (hwd : withdrawFromClassroom db sid cid = .ok db') : CapOk db' := by
  cases hfs : findStudent db sid with
  | none => simp [withdrawFromClassroom, hfs] at hwd
  | some st =>
    cases hfc : findClassroom db cid with
    | none => simp [withdrawFromClassroom, hfs, hfc] at hwd
    | some ct =>
      by_cases hmem : sid ∈ ct.students
      · simp [withdrawFromClassroom, hfs, hfc, hmem] at hwd
        subst hwd
        intro c' hc'
        rcases mem_setBy (w := ct) hfc hc' with h' | h'
        · exact h c' h'
        · subst h'
          exact capOk_filter (h ct (find?_key_facts hfc).1) _
      · simp [withdrawFromClassroom, hfs, hfc, hmem] at hwd

theorem capOk_applyEnrollOp (db : DB) (op : EnrollOp) (h : CapOk db) :
    CapOk (applyEnrollOp db op) := by
  cases op with
  | enroll s c =>
    cases henr : enrollInClassroom db s c with
    | ok db' => simpa [applyEnrollOp, henr] using capOk_enroll_ok h henr
    | error e => simpa [applyEnrollOp, henr] using h
  | withdraw s c =>
    cases hwd : withdrawFromClassroom db s c with
    | ok db' => simpa [applyEnrollOp, hwd] using capOk_withdraw_ok h hwd
    | error e => simpa [applyEnrollOp, hwd] using h

theorem capOk_runEnrollOps (db : DB) (ops : List EnrollOp) (h : CapOk db) :
    CapOk (runEnrollOps db ops) := by
  induction ops generalizing db with
  | nil => exact h
  | cons op rest ih => exact ih (applyEnrollOp db op) (capOk_applyEnrollOp db op h)

/-- C1 (amended).  For every classroom whose `maxCapacity` is set to a
**positive** value, after any sequence of enroll and withdraw operations
(each run to completion) from a store satisfying the capacity invariant,
the stored classroom's students set satisfies `|students| ≤ maxCapacity`;
and — given the student and classroom exist and the student is not already
enrolled (the checks that precede the capacity check) — enroll refuses
with CapacityExceeded exactly when `isAtCapacity` holds.  (The original
claim read "maxCapacity is set"; the code treats a set-but-zero capacity
as unlimited because `!this.maxCapacity` is a JS truthiness test, see the
counterexample.) -/
theorem capacity_invariant_and_check (db : DB) (ops : List EnrollOp)
    (st : Student) (ct : Classroom) (sid cid : Nat)
    (hcap : CapOk db)
    (hs : findStudent db sid = some st)
    (hc : findClassroom db cid = some ct)
    (hnm : ct.students.contains sid = false) :
    (∀ c ∈ (runEnrollOps db ops).classrooms, ∀ m : Nat,
        c.maxCapacity = some m → 0 < m → c.students.length ≤ m)
    ∧ (enrollInClassroom db sid cid = .error .CapacityExceeded ↔ ct.isAtCapacity = true) := by
  have hnm' : sid ∉ ct.students := by simpa using hnm
  constructor
  · intro c' hc' m hm h0
    exact (capOk_iff c').mp (capOk_runEnrollOps db ops hcap c' hc') m hm h0
  · cases hful : ct.isAtCapacity with
    | true => simp [enrollInClassroom, hs, hc, hnm', hful]
    | false => simp [enrollInClassroom, hs, hc, hnm', hful]

/-- Witness for C1: in `dbC1` (capacity 1), after enrolling student 1 and
then attempting student 3 (refused), the stored classroom holds one
student, within capacity; and on the initial store the capacity check is
exactly `isAtCapacity`. -/
theorem capacity_invariant_and_check_witness :
    (⟨2, 9, [1], some 1⟩ : Classroom).students.length ≤ 1
    ∧ (enrollInClassroom dbC1 1 2 = .error .CapacityExceeded ↔
        Classroom.isAtCapacity ⟨2, 9, [], some 1⟩ = true) := by
  have h := capacity_invariant_and_check dbC1
    [EnrollOp.enroll 1 2, EnrollOp.enroll 3 2] ⟨1, []⟩ ⟨2, 9, [], some 1⟩ 1 2
    (by decide) (by decide) (by decide) (by decide)
  exact ⟨h.1 ⟨2, 9, [1], some 1⟩ (by decide) 1 rfl (by decide), h.2⟩

/-- Counterexample for C1 as stated: classroom 2 of `dbCap0` has
`maxCapacity` **set** to 0 and no students, so by the claim's formula
`students.length >= maxCapacity` it is at capacity and enroll must refuse
with CapacityExceeded — but the code's falsy test treats capacity 0 as
unlimited: `isAtCapacity` is false, the enroll succeeds, and the stored
classroom then violates `|students| ≤ maxCapacity`. -/
theorem capacity_zero_counterexample :
    enrollInClassroom dbCap0 1 2 = .ok dbCap0'
    ∧ (∃ c ∈ dbCap0'.classrooms, c.maxCapacity = some 0 ∧ c.students.length > 0)
    ∧ Classroom.isAtCapacity ⟨2, 9, [], some 0⟩ = false
    ∧ (⟨2, 9, [], some 0⟩ : Classroom).students.length ≥ 0 :=
  ⟨rfl, by decide, by decide, by decide⟩

/-! ## Duplicate enrollment (claim C3) -/

/-- C3 (amended).  In every store where the student is already listed in
the classroom's student set, a further enroll of the same student fails
and leaves the store unchanged; via `studentService.enrollInClassroom` it
fails with Conflict, including when the classroom is also at capacity; via
`classroomService.addStudentToClassroom` it fails with CapacityExceeded
when the classroom is at capacity (that path checks capacity before the
duplicate check) and with Conflict otherwise.  (The original claim said
the failure is Conflict on both paths even at capacity; the
counterexample shows the classroom-service path returns CapacityExceeded
there.) -/
theorem duplicate_enroll (db : DB) (sid cid : Nat) (st : Student) (ct : Classroom)
    (hs : findStudent db sid = some st) (hc : findClassroom db cid = some ct)
    (hmem : ct.students.contains sid = true) :
    enrollInClassroom db sid cid = .error .Conflict
    ∧ applyRelOp db (RelOp.enroll sid cid) = db
    ∧ addStudentToClassroom db cid sid =
        .error (if ct.isAtCapacity then Err.CapacityExceeded else Err.Conflict) := by
  have hmem' : sid ∈ ct.students := by simpa using hmem
  refine ⟨?_, ?_, ?_⟩
  · simp [enrollInClassroom, hs, hc, hmem']
  · simp [applyRelOp, enrollInClassroom, hs, hc, hmem']
  · cases hful : ct.isAtCapacity with
    | true => simp [addStudentToClassroom, hs, hc, hmem', hful]
    | false => simp [addStudentToClassroom, hs, hc, hmem', hful]

/-- Witness for C3: in `dbC3` (student 1 already in classroom 2, capacity
3 not reached) both enroll paths refuse with Conflict and the store is
unchanged. -/
theorem duplicate_enroll_witness :
    enrollInClassroom dbC3 1 2 = .error .Conflict
    ∧ applyRelOp dbC3 (RelOp.enroll 1 2) = dbC3
    ∧ addStudentToClassroom dbC3 2 1 =
        .error (if Classroom.isAtCapacity ⟨2, 9, [1], some 3⟩ then Err.CapacityExceeded
          else Err.Conflict) :=
  duplicate_enroll dbC3 1 2 ⟨1, [2]⟩ ⟨2, 9, [1], some 3⟩ (by decide) (by decide) (by decide)

/-- Counterexample for C3 as stated: in `dbC3x` student 1 is already in
classroom 2, which is also at its capacity of 1; the classroom-service
enroll path fails with CapacityExceeded, not Conflict. -/
theorem duplicate_enroll_at_capacity_counterexample :
    1 ∈ ((⟨2, 9, [1], some 1⟩ : Classroom).students)
    ∧ addStudentToClassroom dbC3x 2 1 = .error .CapacityExceeded
    ∧ addStudentToClassroom dbC3x 2 1 ≠ .error .Conflict := by decide

/-! ## Withdrawal (claim C7) -/

theorem findStudent_set_self (db : DB) (i : Nat) (f : Student → Student)
    (hf : ∀ s, (f s).sid = s.sid) :
    findStudent (setStudent db i f) i = (findStudent db i).map f :=
  find?_setBy_self hf db.students i

theorem findClassroom_set_self (db : DB) (i : Nat) (g : Classroom → Classroom)
    (hg : ∀ c, (g c).cid = c.cid) :
    findClassroom (setClassroom db i g) i = (findClassroom db i).map g :=
  find?_setBy_self hg db.classrooms i

/-- C7 (amended).  For every student and classroom that both exist:
`studentService.withdrawFromClassroom` fails with Conflict when the
student is not listed in the classroom's student set and otherwise removes
`studentId` from `classroom.students` and `classroomId` from
`student.classrooms`; `classroomService.removeStudentFromClassroom`
performs the same mutual removal **unconditionally**, succeeding as a
no-op when the student is not enrolled; both fail with NotFound when
either entity is missing.  (The original claim said withdraw always fails
with Conflict when not enrolled; the counterexample shows the
classroom-service path succeeds instead.) -/
theorem withdraw_spec (db : DB) (sid cid : Nat) (st : Student) (ct : Classroom)
    (hs : findStudent db sid = some st) (hc : findClassroom db cid = some ct) :
    (ct.students.contains sid = false →
      withdrawFromClassroom db sid cid = .error .Conflict)
    ∧ (ct.students.contains sid = true →
      ∃ db', withdrawFromClassroom db sid cid = .ok db'
        ∧ findStudent db' sid =
            some { st with classrooms := st.classrooms.filter (fun i => i ≠ cid) }
        ∧ findClassroom db' cid =
            some { ct with students := ct.students.filter (fun i => i ≠ sid) })
    ∧ (∃ db', removeStudentFromClassroom db cid sid = .ok db'
        ∧ findStudent db' sid =
            some { st with classrooms := st.classrooms.filter (fun i => i ≠ cid) }
        ∧ findClassroom db' cid =
            some { ct with students := ct.students.filter (fun i => i ≠ sid) })
    ∧ (∀ j k : Nat, findStudent db j = none ∨ findClassroom db k = none →
        withdrawFromClassroom db j k = .error .NotFound
        ∧ removeStudentFromClassroom db k j = .error .NotFound) := by
  refine ⟨?_, ?_, ?_, ?_⟩
  · intro hmem
    have hmem' : sid ∉ ct.students := by simpa using hmem
    simp [withdrawFromClassroom, hs, hc, hmem']
  · intro hmem
    have hmem' : sid ∈ ct.students := by simpa using hmem
    refine ⟨setClassroom (setStudent db sid
        (fun s => { s with classrooms := s.classrooms.filter (fun i => i ≠ cid) })) cid
        (fun c => { c with students := c.students.filter (fun i => i ≠ sid) }), ?_, ?_, ?_⟩
    · simp [withdrawFromClassroom, hs, hc, hmem']
    · show findStudent (setStudent db sid
        (fun s => { s with classrooms := s.classrooms.filter (fun i => i ≠ cid) })) sid = _
      rw [findStudent_set_self db sid
        (fun s => { s with classrooms := s.classrooms.filter (fun i => i ≠ cid) })
        (fun s => rfl), hs]
      rfl
    · rw [findClassroom_set_self (setStudent db sid
        (fun s => { s with classrooms := s.classrooms.filter (fun i => i ≠ cid) })) cid
        (fun c => { c with students := c.students.filter (fun i => i ≠ sid) })
        (fun c => rfl)]
      show (findClassroom db cid).map _ = _
      rw [hc]
      rfl
  · refine ⟨setStudent (setClassroom db cid
        (fun c => { c with students := c.students.filter (fun i => i ≠ sid) })) sid
        (fun s => { s with classrooms := s.classrooms.filter (fun i => i ≠ cid) }), ?_, ?_, ?_⟩
    · simp [removeStudentFromClassroom, hs, hc]
    · rw [findStudent_set_self (setClassroom db cid
        (fun c => { c with students := c.students.filter (fun i => i ≠ sid) })) sid
        (fun s => { s with classrooms := s.classrooms.filter (fun i => i ≠ cid) })
        (fun s => rfl)]
      show (findStudent db sid).map _ = _
      rw [hs]
      rfl
    · show findClassroom (setClassroom db cid
        (fun c => { c with students := c.students.filter (fun i => i ≠ sid) })) cid = _
      rw [findClassroom_set_self db cid
        (fun c => { c with students := c.students.filter (fun i => i ≠ sid) })
        (fun c => rfl), hc]
      rfl
  · intro j k hjk
    rcases hjk with hj | hk
    · refine ⟨by simp [withdrawFromClassroom, hj], ?_⟩
      cases hck : findClassroom db k with
      | none => simp [removeStudentFromClassroom, hck]
      | some c => simp [removeStudentFromClassroom, hck, hj]
    · refine ⟨?_, by simp [removeStudentFromClassroom, hk]⟩
      cases hsj : findStudent db j with
      | none => simp [withdrawFromClassroom, hsj]
      | some s => simp [withdrawFromClassroom, hsj, hk]

/-- Witness for C7: withdrawing enrolled student 1 from classroom 2 of
`dbC7` succeeds and strips the mutual references; withdrawing student 4
from the missing classroom 3 gives NotFound. -/
theorem withdraw_spec_witness :
    (∃ db', withdrawFromClassroom dbC7 1 2 = .ok db'
      ∧ findStudent db' 1 = some ⟨1, []⟩
      ∧ findClassroom db' 2 = some ⟨2, 9, [], none⟩)
    ∧ withdrawFromClassroom dbC7 4 3 = .error .NotFound := by
  have h := withdraw_spec dbC7 1 2 ⟨1, [2]⟩ ⟨2, 9, [1], none⟩ (by decide) (by decide)
  refine ⟨?_, (h.2.2.2 4 3 (Or.inr (by decide))).1⟩
  obtain ⟨db', h3, h4, h5⟩ := h.2.1 (by decide)
  exact ⟨db', h3, h4.trans (by decide), h5.trans (by decide)⟩

/-- Counterexample for C7 as stated: in `dbC7x` student 1 exists and is
not listed in classroom 2, yet `removeStudentFromClassroom` succeeds (as
a no-op) instead of failing with Conflict. -/
theorem withdraw_not_enrolled_counterexample :
    (1 ∉ (⟨2, 9, [], none⟩ : Classroom).students)
    ∧ removeStudentFromClassroom dbC7x 2 1 = .ok dbC7x
    ∧ removeStudentFromClassroom dbC7x 2 1 ≠ .error .Conflict := by decide

/-! ## Teacher deletion resets the user role (claim C10) -/

theorem findUser_set_self (db : DB) (i : Nat) (f : User → User)
    (hf : ∀ u, (f u).uid = u.uid) :
    findUser (setUser db i f) i = (findUser db i).map f :=
  find?_setBy_self hf db.users i

/-- C10 (confirmed).  Whenever teacher deletion succeeds (the teacher
exists and owns zero classrooms) and the backing user exists, the
operation sets that user's `role` to `student` unconditionally — the
theorem places no constraint on the user's previous role, so it covers
`admin` as well (the witness instantiates it) — besides removing the
teacher document. -/
theorem deleteTeacher_resets_role (db : DB) (tid : Nat) (t : Teacher) (u : User)
    (ht : findTeacher db tid = some t)
    (hcnt : classroomCount db tid = 0)
    (hu : findUser db t.userId = some u) :
    ∃ db', deleteTeacher db tid = .ok db'
      ∧ findUser db' t.userId = some { u with role := Role.student }
      ∧ findTeacher db' tid = none := by
  refine ⟨{ setUser db t.userId (fun u => { u with role := Role.student }) with
      teachers := (setUser db t.userId (fun u => { u with role := Role.student })).teachers.filter
        (fun x => x.tid ≠ tid) }, ?_, ?_, ?_⟩
  · simp [deleteTeacher, ht, hcnt, hu]
  · show findUser (setUser db t.userId (fun u => { u with role := Role.student })) t.userId = _
    rw [findUser_set_self db t.userId (fun u => { u with role := Role.student })
      (fun u => rfl), hu]
    rfl
  · exact find?_eq_none_of_filter_ne Teacher.tid _ tid

/-- Witness for C10: deleting teacher 3 of `dbC10`, whose backing user 7
has role `admin`, succeeds and leaves user 7 with role `student`. -/
theorem deleteTeacher_resets_role_witness :
    ∃ db', deleteTeacher dbC10 3 = .ok db'
      ∧ findUser db' 7 = some ⟨7, Role.student⟩
      ∧ findTeacher db' 3 = none := by
  obtain ⟨db', h1, h2, h3⟩ :=
    deleteTeacher_resets_role dbC10 3 ⟨3, 7, []⟩ ⟨7, Role.admin⟩ (by decide) (by decide) (by decide)
  exact ⟨db', h1, h2.trans (by decide), h3⟩

/-! ## Classroom deletion (claim C6) -/

theorem findTeacher_set_self (db : DB) (i : Nat) (f : Teacher → Teacher)
    (hf : ∀ t, (f t).tid = t.tid) :
    findTeacher (setTeacher db i f) i = (findTeacher db i).map f :=
  find?_setBy_self hf db.teachers i

/-- C6 (confirmed).  `deleteClassroom` fails with NotFound when the
classroom does not exist; for an existing classroom it succeeds, removing
the classroom reference from its teacher's owned-classroom set, removing
it from the classroom set of every student listed in the classroom's
student set (other students are untouched), and deleting the classroom
document, leaving the other collections unchanged.  The all-or-nothing
transaction of the source is modelled by the `Except` result: an error
returns no store, so a run-to-completion caller keeps the old one and no
partial application is observable. -/
theorem deleteClassroom_spec (db : DB) (cid : Nat) (ct : Classroom)
    (hc : findClassroom db cid = some ct) :
    (∀ i : Nat, findClassroom db i = none → deleteClassroom db i = .error .NotFound)
    ∧ ∃ db', deleteClassroom db cid = .ok db'
      ∧ findClassroom db' cid = none
      ∧ (∀ s ∈ db.students,
          (if ct.students.contains s.sid then
            { s with classrooms := s.classrooms.filter (fun i => i ≠ cid) }
          else s) ∈ db'.students)
      ∧ (∀ t, findTeacher db ct.teacherId = some t →
          findTeacher db' ct.teacherId =
            some { t with classrooms := t.classrooms.filter (fun i => i ≠ cid) })
      ∧ db'.users = db.users ∧ db'.grades = db.grades ∧ db'.attendances = db.attendances := by
  refine ⟨fun i hi => by simp [deleteClassroom, hi], ?_⟩
  refine ⟨DB.mk db.users
      (setBy Teacher.tid
        (fun t => { t with classrooms := t.classrooms.filter (fun i => i ≠ cid) })
        ct.teacherId db.teachers)
      (db.students.map (fun s => if ct.students.contains s.sid then
          { s with classrooms := s.classrooms.filter (fun i => i ≠ cid) } else s))
      (db.classrooms.filter (fun c => c.cid ≠ cid))
      db.grades
      db.attendances, ?_, ?_, ?_, ?_, rfl, rfl, rfl⟩
  · simp [deleteClassroom, setTeacher, hc]
  · exact find?_eq_none_of_filter_ne Classroom.cid db.classrooms cid
  · intro s hs
    exact List.mem_map_of_mem _ hs
  · intro t ht
    show findTeacher (setTeacher db ct.teacherId
      (fun t => { t with classrooms := t.classrooms.filter (fun i => i ≠ cid) })) ct.teacherId = _
    rw [findTeacher_set_self db ct.teacherId
      (fun t => { t with classrooms := t.classrooms.filter (fun i => i ≠ cid) })
      (fun t => rfl), ht]
    rfl

/-- Witness for C6: deleting classroom 2 of `dbC6` succeeds; the
classroom is gone, enrolled students 1 and 4 lose the reference,
unrelated student 5 is untouched, and owning teacher 9 loses the
reference. -/
theorem deleteClassroom_spec_witness :
    ∃ db', deleteClassroom dbC6 2 = .ok db'
      ∧ findClassroom db' 2 = none
      ∧ (⟨1, []⟩ : Student) ∈ db'.students
      ∧ (⟨5, []⟩ : Student) ∈ db'.students
      ∧ findTeacher db' 9 = some ⟨9, 70, []⟩ := by
  obtain ⟨db', h1, h2, h3, h4, _⟩ :=
    (deleteClassroom_spec dbC6 2 ⟨2, 9, [1, 4], none⟩ (by decide)).2
  refine ⟨db', h1, h2, ?_, ?_, ?_⟩
  · have hmem := h3 ⟨1, [2]⟩ (by decide)
    exact (by decide : (if (⟨2, 9, [1, 4], none⟩ : Classroom).students.contains
      (Student.sid ⟨1, [2]⟩) then
        { (⟨1, [2]⟩ : Student) with
          classrooms := (Student.classrooms ⟨1, [2]⟩).filter (fun i => i ≠ 2) }
      else ⟨1, [2]⟩) = (⟨1, []⟩ : Student)) ▸ hmem
  · have hmem := h3 ⟨5, []⟩ (by decide)
    exact (by decide : (if (⟨2, 9, [1, 4], none⟩ : Classroom).students.contains
      (Student.sid ⟨5, []⟩) then
        { (⟨5, []⟩ : Student) with
          classrooms := (Student.classrooms ⟨5, []⟩).filter (fun i => i ≠ 2) }
      else ⟨5, []⟩) = (⟨5, []⟩ : Student)) ▸ hmem
  · exact (h4 ⟨9, 70, [2]⟩ (by decide)).trans (by decide)

/-! ## Student deletion cascade (claim C8) -/

theorem stripStudent_inv {sid : Nat} {b a' : Attendance}
    (h : stripStudent sid b = some a') :
    (b.records.any (fun r => r.studentId == sid) = false ∧ a' = b)
    ∨ (b.records.any (fun r => r.studentId == sid) = true
       ∧ b.records.filter (fun r => r.studentId ≠ sid) ≠ []
       ∧ a' = { b with records := b.records.filter (fun r => r.studentId ≠ sid) }) := by
  simp only [stripStudent] at h
  split at h
  · split at h
    · exact absurd h (by simp)
    · rename_i h1 h2
      refine Or.inr ⟨h1, ?_, (Option.some_inj.mp h).symm⟩
      intro hnil
      exact h2 (by rw [hnil]; rfl)
  · rename_i h1
    exact Or.inl ⟨Bool.eq_false_iff.mpr h1, (Option.some_inj.mp h).symm⟩

theorem stripStudent_aid {sid : Nat} {b a' : Attendance}
    (h : stripStudent sid b = some a') : a'.aid = b.aid := by
  rcases stripStudent_inv h with ⟨_, rfl⟩ | ⟨_, _, rfl⟩ <;> rfl

theorem stripStudent_some_eq {sid : Nat} {a : Attendance}
    (hany : a.records.any (fun r => r.studentId == sid) = true)
    (hkept : a.records.filter (fun r => r.studentId ≠ sid) ≠ []) :
    stripStudent sid a =
      some { a with records := a.records.filter (fun r => r.studentId ≠ sid) } := by
  have hemp : ¬ ((a.records.filter (fun r => r.studentId ≠ sid)).isEmpty = true) := by
    intro he
    exact hkept (by simpa using he)
  simp only [stripStudent]
  rw [if_pos hany]
  show (if (a.records.filter (fun r => r.studentId ≠ sid)).isEmpty = true then none
      else some { a with records := a.records.filter (fun r => r.studentId ≠ sid) }) = _
  rw [if_neg hemp]

/-- C8 (confirmed).  Student deletion fails with Conflict whenever the
student's classroom set is non-empty; when it is empty, deletion removes
every Grade whose `studentId` matches, strips the student's sub-record
from every Attendance document that contains one (documents without one
are untouched), deletes any Attendance document whose record list becomes
empty, and deletes the student document. -/
theorem deleteStudent_spec (db : DB) (sid : Nat) (st : Student)
    (hnd : (db.attendances.map Attendance.aid).Nodup)
    (hs : findStudent db sid = some st) :
    (st.classrooms ≠ [] → deleteStudent db sid = .error .Conflict)
    ∧ (st.classrooms = [] → ∃ db', deleteStudent db sid = .ok db'
        ∧ findStudent db' sid = none
        ∧ db'.grades = db.grades.filter (fun g => g.studentId ≠ sid)
        ∧ (∀ a ∈ db'.attendances, ∀ r ∈ a.records, r.studentId ≠ sid)
        ∧ (∀ a ∈ db.attendances, a.records.any (fun r => r.studentId == sid) = false →
            a ∈ db'.attendances)
        ∧ (∀ a ∈ db.attendances, a.records.filter (fun r => r.studentId ≠ sid) ≠ [] →
            { a with records := a.records.filter (fun r => r.studentId ≠ sid) }
              ∈ db'.attendances)
        ∧ (∀ a ∈ db.attendances, a.records ≠ [] →
            a.records.filter (fun r => r.studentId ≠ sid) = [] →
            ∀ a' ∈ db'.attendances, a'.aid ≠ a.aid)) := by
  constructor
  · intro hne
    have hlen : 0 < st.classrooms.length := List.length_pos.mpr hne
    simp [deleteStudent, hs, hlen]
  · intro hnil
    refine ⟨DB.mk db.users db.teachers
        (db.students.filter (fun s => s.sid ≠ sid))
        db.classrooms
        (db.grades.filter (fun g => g.studentId ≠ sid))
        (db.attendances.filterMap (stripStudent sid)), ?_, ?_, rfl, ?_, ?_, ?_, ?_⟩
    · simp [deleteStudent, hs, hnil]
    · exact find?_eq_none_of_filter_ne Student.sid db.students sid
    · intro a ha r hr
      obtain ⟨b, hb, hfb⟩ := List.mem_filterMap.mp ha
      rcases stripStudent_inv hfb with ⟨hany, rfl⟩ | ⟨hany, hne, rfl⟩
      · simpa using List.any_eq_false.mp hany r hr
      · exact of_decide_eq_true (List.mem_filter.mp hr).2
    · intro a ha hany
      exact List.mem_filterMap.mpr ⟨a, ha, by simp [stripStudent, hany]⟩
    · intro a ha hkept
      cases hany : a.records.any (fun r => r.studentId == sid) with
      | true =>
        exact List.mem_filterMap.mpr ⟨a, ha, stripStudent_some_eq hany hkept⟩
      | false =>
        have hfe : a.records.filter (fun r => r.studentId ≠ sid) = a.records :=
          List.filter_eq_self.mpr (fun r hr => by
            simpa using List.any_eq_false.mp hany r hr)
        rw [hfe]
        exact List.mem_filterMap.mpr ⟨a, ha, by simp [stripStudent, hany]⟩
    · intro a ha hne0 hfe a' ha' heq
      obtain ⟨b, hb, hfb⟩ := List.mem_filterMap.mp ha'
      have hba : b = a := key_inj_of_nodup hnd hb ha ((stripStudent_aid hfb).symm.trans heq)
      subst hba
      rcases stripStudent_inv hfb with ⟨hany, _⟩ | ⟨hany, hne, _⟩
      · have hfeq : b.records.filter (fun r => r.studentId ≠ sid) = b.records :=
          List.filter_eq_self.mpr (fun r hr => by
            simpa using List.any_eq_false.mp hany r hr)
        exact hne0 (hfeq.symm.trans hfe)
      · exact hne hfe

/-- Witness for C8: deleting student 1 (no classrooms) from `dbC8`
removes their grade, strips their sub-records (attendance 2 keeps only
student 2's record), deletes attendance 1 (which held only student 1),
and leaves attendance 3 untouched. -/
theorem deleteStudent_spec_witness :
    ∃ db', deleteStudent dbC8 1 = .ok db'
      ∧ findStudent db' 1 = none
      ∧ db'.grades = [⟨2, 5, 9, 10, 1, "quiz"⟩]
      ∧ (⟨3, 5, 2, [⟨2, "absent"⟩]⟩ : Attendance) ∈ db'.attendances
      ∧ (⟨2, 5, 1, [⟨2, "present"⟩]⟩ : Attendance) ∈ db'.attendances
      ∧ (∀ a' ∈ db'.attendances, a'.aid ≠ 1) := by
  obtain ⟨db', h1, h2, h3, _, h5, h6, h7⟩ :=
    (deleteStudent_spec dbC8 1 ⟨1, []⟩ (by decide) (by decide)).2 rfl
  refine ⟨db', h1, h2, h3.trans (by decide), ?_, ?_, ?_⟩
  · exact h5 ⟨3, 5, 2, [⟨2, "absent"⟩]⟩ (by decide) (by decide)
  · have hmem := h6 ⟨2, 5, 1, [⟨1, "late"⟩, ⟨2, "present"⟩]⟩ (by decide) (by decide)
    exact (by decide : ({ (⟨2, 5, 1, [⟨1, "late"⟩, ⟨2, "present"⟩]⟩ : Attendance) with
      records := (Attendance.records ⟨2, 5, 1, [⟨1, "late"⟩, ⟨2, "present"⟩]⟩).filter
        (fun r => r.studentId ≠ 1) } : Attendance)
      = ⟨2, 5, 1, [⟨2, "present"⟩]⟩) ▸ hmem
  · intro a' ha'
    exact h7 ⟨1, 5, 0, [⟨1, "present"⟩]⟩ (by decide) (by decide) (by decide) a' ha'

/-! ## Per-student weighted average (claim C4) -/

/-- C4 (confirmed).  For grades whose weightage is non-negative (the
schema enforces `min: 0`), `getStudentAverage` equals the spec's formula:
the weighted average `Σ(percentage·weightage)/Σ(weightage)` over the
matching grades rounded to two decimals, and 0 when no grades match.
(When every weightage is 0 the source returns the number 0 and the
formula divides by zero, which is also 0 in `ℚ`.)  The witness evaluates
the spec's own example to 83.33. -/
theorem getStudentAverage_spec (db : DB) (studentId classroomId : Nat)
    (hw : ∀ g ∈ gradesFor db studentId classroomId, 0 ≤ g.weightage) :
    getStudentAverage db studentId classroomId =
      specWeightedAverage db studentId classroomId := by
  unfold getStudentAverage specWeightedAverage
  by_cases hemp : (gradesFor db studentId classroomId).isEmpty = true
  · simp [hemp]
  · simp only [hemp, if_false]
    by_cases hpos :
        0 < ((gradesFor db studentId classroomId).map (fun g => g.weightage)).sum
    · rw [if_pos hpos]
    · rw [if_neg hpos]
      have hge : 0 ≤ ((gradesFor db studentId classroomId).map (fun g => g.weightage)).sum := by
        refine List.sum_nonneg ?_
        intro x hx
        obtain ⟨g, hg, rfl⟩ := List.mem_map.mp hx
        exact hw g hg
      have hzero :
          ((gradesFor db studentId classroomId).map (fun g => g.weightage)).sum = 0 :=
        le_antisymm (not_lt.mp hpos) hge
      rw [hzero, div_zero]
      simp [round2]

/-- Witness for C4: the spec's example — grades 8/10 with weight 2 and
18/20 with weight 1 — yields the value 83.33. -/
theorem getStudentAverage_spec_witness :
    getStudentAverage dbC4 1 2 = 8333 / 100 := by
  rw [getStudentAverage_spec dbC4 1 2 (by decide)]
  simp only [specWeightedAverage, gradesFor, dbC4]
  norm_num [Grade.pct, round2, round_eq]

/-! ## Classroom grade statistics (claim C9) -/

theorem foldlMax_ge_init (l : List ℚ) (a : ℚ) :
    a ≤ l.foldl (fun h p => if p > h then p else h) a := by
  induction l generalizing a with
  | nil => exact le_refl a
  | cons p t ih =>
    refine le_trans ?_ (ih (if p > a then p else a))
    by_cases h : p > a
    · simp only [if_pos h]
      exact le_of_lt h
    · simp only [if_neg h]
      exact le_refl a

theorem foldlMax_ge_mem (l : List ℚ) (a : ℚ) :
    ∀ x ∈ l, x ≤ l.foldl (fun h p => if p > h then p else h) a := by
  induction l generalizing a with
  | nil => intro x hx; cases hx
  | cons p t ih =>
    intro x hx
    rcases List.mem_cons.mp hx with rfl | hx'
    · refine le_trans ?_ (foldlMax_ge_init t (if x > a then x else a))
      by_cases h : x > a
      · simp only [if_pos h]
        exact le_refl x
      · simp only [if_neg h]
        exact not_lt.mp h
    · exact ih (if p > a then p else a) x hx'

theorem foldlMax_mem_or_init (l : List ℚ) (a : ℚ) :
    l.foldl (fun h p => if p > h then p else h) a = a
    ∨ l.foldl (fun h p => if p > h then p else h) a ∈ l := by
  induction l generalizing a with
  | nil => exact Or.inl rfl
  | cons p t ih =>
    rw [List.foldl_cons]
    rcases ih (if p > a then p else a) with h | h
    · by_cases hpa : p > a
      · right
        rw [h, if_pos hpa]
        exact List.mem_cons_self p t
      · left
        rw [h, if_neg hpa]
    · exact Or.inr (List.mem_cons_of_mem p h)

theorem foldlMin_le_init (l : List ℚ) (a : ℚ) :
    l.foldl (fun h p => if p < h then p else h) a ≤ a := by
  induction l generalizing a with
  | nil => exact le_refl a
  | cons p t ih =>
    refine le_trans (ih (if p < a then p else a)) ?_
    by_cases h : p < a
    · simp only [if_pos h]
      exact le_of_lt h
    · simp only [if_neg h]
      exact le_refl a

theorem foldlMin_le_mem (l : List ℚ) (a : ℚ) :
    ∀ x ∈ l, l.foldl (fun h p => if p < h then p else h) a ≤ x := by
  induction l generalizing a with
  | nil => intro x hx; cases hx
  | cons p t ih =>
    intro x hx
    rcases List.mem_cons.mp hx with rfl | hx'
    · refine le_trans (foldlMin_le_init t (if x < a then x else a)) ?_
      by_cases h : x < a
      · simp only [if_pos h]
        exact le_refl x
      · simp only [if_neg h]
        exact not_lt.mp h
    · exact ih (if p < a then p else a) x hx'

theorem foldlMin_mem_or_init (l : List ℚ) (a : ℚ) :
    l.foldl (fun h p => if p < h then p else h) a = a
    ∨ l.foldl (fun h p => if p < h then p else h) a ∈ l := by
  induction l generalizing a with
  | nil => exact Or.inl rfl
  | cons p t ih =>
    rw [List.foldl_cons]
    rcases ih (if p < a then p else a) with h | h
    · by_cases hpa : p < a
      · right
        rw [h, if_pos hpa]
        exact List.mem_cons_self p t
      · left
        rw [h, if_neg hpa]
    · exact Or.inr (List.mem_cons_of_mem p h)

theorem lookup_bumpType (l : List (String × Nat)) (t ty : String) :
    ((bumpType l t).lookup ty).getD 0 =
      if ty = t then ((l.lookup ty).getD 0) + 1 else (l.lookup ty).getD 0 := by
  induction l with
  | nil =>
    by_cases h : ty = t
    · subst h
      simp [bumpType, List.lookup]
    · simp [bumpType, List.lookup, h, beq_eq_false_iff_ne.mpr h]
  | cons kv rest ih =>
    obtain ⟨s, n⟩ := kv
    by_cases hst : s = t
    · subst hst
      by_cases hty : ty = s
      · subst hty
        simp [bumpType, List.lookup]
      · simp [bumpType, List.lookup, hty, beq_eq_false_iff_ne.mpr hty]
    · by_cases hty : ty = s
      · subst hty
        simp [bumpType, List.lookup, hst, Ne.symm hst]
      · simp [bumpType, List.lookup, hst, hty, beq_eq_false_iff_ne.mpr hty, ih]

theorem lookup_foldl_bumpType (gs : List Grade) (acc : List (String × Nat)) (ty : String) :
    ((gs.foldl (fun m g => bumpType m g.assignmentType) acc).lookup ty).getD 0 =
      (acc.lookup ty).getD 0 + (gs.filter (fun g => g.assignmentType == ty)).length := by
  induction gs generalizing acc with
  | nil => simp
  | cons g t ih =>
    rw [List.foldl_cons, ih, lookup_bumpType]
    by_cases h : ty = g.assignmentType
    · rw [if_pos h, List.filter_cons_of_pos (by rw [beq_iff_eq]; exact h.symm)]
      simp only [List.length_cons]
      omega
    · rw [if_neg h,
        List.filter_cons_of_neg (by rw [beq_iff_eq]; exact fun e => h e.symm)]

/-- C9 (amended).  For a classroom with zero grades, `classroomStatistics`
returns exactly `{averageScore:0, highestScore:0, lowestScore:0,
assignmentCount:0, assignmentTypes:{}}`.  For a non-empty classroom whose
percentages all lie in `[0, 100]`, it returns the grade count, the simple
unweighted mean of the percentages **rounded to two decimals**, the
minimum and maximum percentage (each rounded to two decimals), and the
map from assignment type to occurrence count.  (The original claim said
the exact mean/min/max are returned: the source applies `toFixed(2)` to
all three, and its running highest/lowest start at 0 and 100, so for
out-of-range percentages the returned bounds are clamped — see the
counterexample.) -/
theorem classroomStatistics_spec (db : DB) (cid : Nat)
    (hpct : ∀ g ∈ classGrades db cid, 0 ≤ g.pct ∧ g.pct ≤ 100) :
    (classGrades db cid = [] → getClassroomGradeStatistics db cid = ⟨0, 0, 0, 0, []⟩)
    ∧ (classGrades db cid ≠ [] →
        (getClassroomGradeStatistics db cid).assignmentCount = (classGrades db cid).length
        ∧ (getClassroomGradeStatistics db cid).averageScore =
            round2 (((classGrades db cid).map Grade.pct).sum / (classGrades db cid).length)
        ∧ (∃ g ∈ classGrades db cid,
            (getClassroomGradeStatistics db cid).highestScore = round2 g.pct
            ∧ ∀ g' ∈ classGrades db cid, g'.pct ≤ g.pct)
        ∧ (∃ g ∈ classGrades db cid,
            (getClassroomGradeStatistics db cid).lowestScore = round2 g.pct
            ∧ ∀ g' ∈ classGrades db cid, g.pct ≤ g'.pct)
        ∧ (∀ ty : String,
            ((getClassroomGradeStatistics db cid).assignmentTypes.lookup ty).getD 0 =
              ((classGrades db cid).filter (fun g => g.assignmentType == ty)).length)) := by
  constructor
  · intro hnil
    simp [getClassroomGradeStatistics, hnil]
  · intro hne
    have hemp : (classGrades db cid).isEmpty = false := by
      cases he : (classGrades db cid).isEmpty
      · rfl
      · exact absurd (by simpa using he) hne
    have hred : getClassroomGradeStatistics db cid =
        ⟨round2 ((((classGrades db cid).map Grade.pct).sum) / (classGrades db cid).length),
         round2 ((classGrades db cid).foldl (fun h g => if g.pct > h then g.pct else h) 0),
         round2 ((classGrades db cid).foldl (fun l g => if g.pct < l then g.pct else l) 100),
         (classGrades db cid).length,
         (classGrades db cid).foldl (fun m g => bumpType m g.assignmentType) []⟩ := by
      simp only [getClassroomGradeStatistics, hemp, if_false, Bool.false_eq_true]
    refine ⟨by rw [hred], by rw [hred], ?_, ?_, ?_⟩
    · have hfm : (classGrades db cid).foldl (fun h g => if g.pct > h then g.pct else h) 0 =
          ((classGrades db cid).map Grade.pct).foldl (fun h p => if p > h then p else h) 0 :=
        (List.foldl_map Grade.pct (fun h p => if p > h then p else h)
          (classGrades db cid) 0).symm
      have hnem : ((classGrades db cid).map Grade.pct) ≠ [] := by
        simpa using hne
      rcases foldlMax_mem_or_init ((classGrades db cid).map Grade.pct) 0 with h0 | hm
      · -- the running maximum stayed at 0; the head percentage must be 0
        obtain ⟨g0, hg0⟩ := List.exists_mem_of_ne_nil _ hne
        have hle : g0.pct ≤ 0 := by
          have := foldlMax_ge_mem ((classGrades db cid).map Grade.pct) 0 g0.pct
            (List.mem_map_of_mem Grade.pct hg0)
          rw [h0] at this
          exact this
        have hge : 0 ≤ g0.pct := (hpct g0 hg0).1
        refine ⟨g0, hg0, ?_, ?_⟩
        · rw [hred]
          show round2 _ = _
          rw [hfm, h0, le_antisymm hle hge]
        · intro g' hg'
          have := foldlMax_ge_mem ((classGrades db cid).map Grade.pct) 0 g'.pct
            (List.mem_map_of_mem Grade.pct hg')
          rw [h0] at this
          exact le_trans this hge
      · obtain ⟨g0, hg0, hpe⟩ := List.mem_map.mp hm
        refine ⟨g0, hg0, ?_, ?_⟩
        · rw [hred]
          show round2 _ = _
          rw [hfm, hpe]
        · intro g' hg'
          have := foldlMax_ge_mem ((classGrades db cid).map Grade.pct) 0 g'.pct
            (List.mem_map_of_mem Grade.pct hg')
          rw [← hpe] at this
          exact this
    · have hfm : (classGrades db cid).foldl (fun l g => if g.pct < l then g.pct else l) 100 =
          ((classGrades db cid).map Grade.pct).foldl (fun l p => if p < l then p else l) 100 :=
        (List.foldl_map Grade.pct (fun l p => if p < l then p else l)
          (classGrades db cid) 100).symm
      rcases foldlMin_mem_or_init ((classGrades db cid).map Grade.pct) 100 with h0 | hm
      · obtain ⟨g0, hg0⟩ := List.exists_mem_of_ne_nil _ hne
        have hge : 100 ≤ g0.pct := by
          have := foldlMin_le_mem ((classGrades db cid).map Grade.pct) 100 g0.pct
            (List.mem_map_of_mem Grade.pct hg0)
          rw [h0] at this
          exact this
        have hle : g0.pct ≤ 100 := (hpct g0 hg0).2
        refine ⟨g0, hg0, ?_, ?_⟩
        · rw [hred]
          show round2 _ = _
          rw [hfm, h0, le_antisymm hle hge]
        · intro g' hg'
          have := foldlMin_le_mem ((classGrades db cid).map Grade.pct) 100 g'.pct
            (List.mem_map_of_mem Grade.pct hg')
          rw [h0] at this
          exact le_trans hle this
      · obtain ⟨g0, hg0, hpe⟩ := List.mem_map.mp hm
        refine ⟨g0, hg0, ?_, ?_⟩
        · rw [hred]
          show round2 _ = _
          rw [hfm, hpe]
        · intro g' hg'
          have := foldlMin_le_mem ((classGrades db cid).map Grade.pct) 100 g'.pct
            (List.mem_map_of_mem Grade.pct hg')
          rw [← hpe] at this
          exact this
    · intro ty
      rw [hred]
      show ((((classGrades db cid).foldl (fun m g => bumpType m g.assignmentType)
        []).lookup ty).getD 0) = _
      rw [lookup_foldl_bumpType]
      simp [List.lookup]

/-- Witness for C9: in `dbC9` (percentages 80, 90, 50) the statistics
match the amended description: count 3, the highest percentage is
attained by the 90% grade, and the "quiz" type occurs twice. -/
theorem classroomStatistics_spec_witness :
    (getClassroomGradeStatistics dbC9 5).assignmentCount = (classGrades dbC9 5).length
    ∧ (∃ g ∈ classGrades dbC9 5,
        (getClassroomGradeStatistics dbC9 5).highestScore = round2 g.pct
        ∧ ∀ g' ∈ classGrades dbC9 5, g'.pct ≤ g.pct)
    ∧ (((getClassroomGradeStatistics dbC9 5).assignmentTypes.lookup "quiz").getD 0 =
        ((classGrades dbC9 5).filter (fun g => g.assignmentType == "quiz")).length) := by
  have h := (classroomStatistics_spec dbC9 5 (by norm_num [classGrades, dbC9, Grade.pct])).2
    (by decide)
  exact ⟨h.1, h.2.2.1, h.2.2.2.2 "quiz"⟩

/-- Counterexample for C9 as stated: in `dbC9x` the two percentages are
-25 and -100/3, so the maximum percentage is -25 and the mean is -175/6;
but the returned `highestScore` is the clamped initial value 0, and the
returned average and lowest are the two-decimal roundings -29.17 and
-33.33, not the exact values the claim describes. -/
theorem classroomStatistics_clamped_counterexample :
    (classGrades dbC9x 5).map Grade.pct = [-25, -100/3]
    ∧ (getClassroomGradeStatistics dbC9x 5).highestScore = 0
    ∧ (getClassroomGradeStatistics dbC9x 5).highestScore ≠ -25
    ∧ (getClassroomGradeStatistics dbC9x 5).averageScore = -2917/100
    ∧ (getClassroomGradeStatistics dbC9x 5).averageScore ≠ (-25 + -100/3) / 2
    ∧ (getClassroomGradeStatistics dbC9x 5).lowestScore ≠ -100/3 := by
  refine ⟨?_, ?_, ?_, ?_, ?_, ?_⟩ <;>
    norm_num [getClassroomGradeStatistics, classGrades, dbC9x, Grade.pct, bumpType,
      round2, round_eq]

/-! ## Attendance per-day uniqueness (claim C5) -/

/-- C5 (code bug).  The schema comment says the `{classroomId: 1, date: 1}`
index "ensure[s] one attendance record per classroom per day", and
`createAttendance`'s duplicate check truncates the *incoming* date to
midnight — but the stored documents keep their un-truncated dates, so the
`findOne` comparison never matches a stored non-midnight date and the
unique index only rejects exact-timestamp duplicates.  Evaluating the
embedding at the failing input: two creations for classroom 1 on the same
calendar day, at 10:00 and 15:00, both succeed, leaving two stored
attendance documents for the same (classroom, day) pair, where the claim
requires the second to fail with Conflict. -/
theorem attendance_same_day_bug :
    startOfDay tenAm = startOfDay threePm
    ∧ tenAm ≠ threePm
    ∧ createAttendance dbC5 100 1 tenAm [] = .ok dbC5a
    ∧ createAttendance dbC5a 101 1 threePm [] = .ok dbC5b
    ∧ (dbC5b.attendances.filter (fun a => a.classroomId == 1 &&
        startOfDay a.date == startOfDay tenAm)).length = 2 :=
  ⟨rfl, by decide, rfl, rfl, rfl⟩

/-! ## Bidirectional referential consistency (claim C2) -/

theorem map_sid_preserved (l : List Student) (f : Student → Student)
    (hf : ∀ s, (f s).sid = s.sid) (p : Student → Prop) [DecidablePred p] :
    (l.map (fun s => if p s then f s else s)).map Student.sid = l.map Student.sid := by
  rw [List.map_map]
  refine List.map_congr_left (fun s _ => ?_)
  by_cases h : p s
  · simp [h, hf s]
  · simp [h]

theorem sync_enroll_ok {db db' : DB} {sid cid : Nat}
    (hwf : WF db) (hsync : Sync db)
    (h : enrollInClassroom db sid cid = .ok db') : Sync db' ∧ WF db' := by
  obtain ⟨hnds, hndc⟩ := hwf
  cases hfs : findStudent db sid with
  | none => simp [enrollInClassroom, hfs] at h
  | some st =>
    cases hfc : findClassroom db cid with
    | none => simp [enrollInClassroom, hfs, hfc] at h
    | some ct =>
      by_cases hmem : sid ∈ ct.students
      · simp [enrollInClassroom, hfs, hfc, hmem] at h
      · cases hful : ct.isAtCapacity with
        | true => simp [enrollInClassroom, hfs, hfc, hmem, hful] at h
        | false =>
          have hok : enrollInClassroom db sid cid = .ok (setClassroom (setStudent db sid
              (fun s => { s with classrooms := s.classrooms ++ [cid] })) cid
              (fun c => { c with students := c.students ++ [sid] })) := by
            simp [enrollInClassroom, hfs, hfc, hmem, hful]
          rw [hok] at h
          injection h with h2
          subst h2
          have hstm : st ∈ db.students := (find?_key_facts hfs).1
          have hsts : st.sid = sid := (find?_key_facts hfs).2
          have hctm : ct ∈ db.classrooms := (find?_key_facts hfc).1
          have hctc : ct.cid = cid := (find?_key_facts hfc).2
          constructor
          · intro s' hs' c' hc'
            have hs'' : s' ∈ setBy Student.sid
                (fun s => { s with classrooms := s.classrooms ++ [cid] }) sid db.students := hs'
            have hc'' : c' ∈ setBy Classroom.cid
                (fun c => { c with students := c.students ++ [sid] }) cid db.classrooms := hc'
            rw [setBy_eq_map _ hnds sid] at hs''
            rw [setBy_eq_map _ hndc cid] at hc''
            obtain ⟨s0, hs0, rfl⟩ := List.mem_map.mp hs''
            obtain ⟨c0, hc0, rfl⟩ := List.mem_map.mp hc''
            by_cases h1 : s0.sid = sid <;> by_cases h2 : c0.cid = cid
            · have he1 : s0 = st := key_inj_of_nodup hnds hs0 hstm (h1.trans hsts.symm)
              have he2 : c0 = ct := key_inj_of_nodup hndc hc0 hctm (h2.trans hctc.symm)
              subst he1
              subst he2
              simp [h1, h2, List.mem_append]
            · have he1 : s0 = st := key_inj_of_nodup hnds hs0 hstm (h1.trans hsts.symm)
              subst he1
              simp only [if_pos h1, if_neg h2]
              simp [List.mem_append, h2, hsync s0 hs0 c0 hc0]
            · have he2 : c0 = ct := key_inj_of_nodup hndc hc0 hctm (h2.trans hctc.symm)
              subst he2
              simp only [if_neg h1, if_pos h2]
              simp [List.mem_append, h1, hsync s0 hs0 c0 hc0]
            · simp only [if_neg h1, if_neg h2]
              exact hsync s0 hs0 c0 hc0
          · constructor
            · show ((setBy Student.sid
                (fun s => { s with classrooms := s.classrooms ++ [cid] })
                sid db.students).map Student.sid).Nodup
              rw [setBy_eq_map _ hnds sid,
                map_sid_preserved db.students
                  (fun s => { s with classrooms := s.classrooms ++ [cid] })
                  (fun s => rfl) (fun s => s.sid = sid)]
              exact hnds
            · show ((setBy Classroom.cid
                (fun c => { c with students := c.students ++ [sid] })
                cid db.classrooms).map Classroom.cid).Nodup
              rw [setBy_eq_map _ hndc cid, List.map_map]
              have hcongr : ∀ c ∈ db.classrooms,
                  (Classroom.cid ∘ fun a => if a.cid = cid then
                    { a with students := a.students ++ [sid] } else a) c = c.cid := by
                intro c _
                by_cases h : c.cid = cid
                · simp [h]
                · simp [h]
              rw [List.map_congr_left hcongr]
              exact hndc

theorem sync_withdraw_ok {db db' : DB} {sid cid : Nat}
    (hwf : WF db) (hsync : Sync db)
    (h : withdrawFromClassroom db sid cid = .ok db') : Sync db' ∧ WF db' := by
  obtain ⟨hnds, hndc⟩ := hwf
  cases hfs : findStudent db sid with
  | none => simp [withdrawFromClassroom, hfs] at h
  | some st =>
    cases hfc : findClassroom db cid with
    | none => simp [withdrawFromClassroom, hfs, hfc] at h
    | some ct =>
      by_cases hmem : sid ∈ ct.students
      · have hok : withdrawFromClassroom db sid cid = .ok (setClassroom (setStudent db sid
            (fun s => { s with classrooms := s.classrooms.filter (fun i => i ≠ cid) })) cid
            (fun c => { c with students := c.students.filter (fun i => i ≠ sid) })) := by
          simp [withdrawFromClassroom, hfs, hfc, hmem]
        rw [hok] at h
        injection h with h2
        subst h2
        have hstm : st ∈ db.students := (find?_key_facts hfs).1
        have hsts : st.sid = sid := (find?_key_facts hfs).2
        have hctm : ct ∈ db.classrooms := (find?_key_facts hfc).1
        have hctc : ct.cid = cid := (find?_key_facts hfc).2
        constructor
        · intro s' hs' c' hc'
          have hs'' : s' ∈ setBy Student.sid
              (fun s => { s with classrooms := s.classrooms.filter (fun i => i ≠ cid) })
              sid db.students := hs'
          have hc'' : c' ∈ setBy Classroom.cid
              (fun c => { c with students := c.students.filter (fun i => i ≠ sid) })
              cid db.classrooms := hc'
          rw [setBy_eq_map _ hnds sid] at hs''
          rw [setBy_eq_map _ hndc cid] at hc''
          obtain ⟨s0, hs0, rfl⟩ := List.mem_map.mp hs''
          obtain ⟨c0, hc0, rfl⟩ := List.mem_map.mp hc''
          by_cases h1 : s0.sid = sid <;> by_cases h2 : c0.cid = cid
          · have he1 : s0 = st := key_inj_of_nodup hnds hs0 hstm (h1.trans hsts.symm)
            have he2 : c0 = ct := key_inj_of_nodup hndc hc0 hctm (h2.trans hctc.symm)
            subst he1
            subst he2
            simp [h1, h2, List.mem_filter]
          · have he1 : s0 = st := key_inj_of_nodup hnds hs0 hstm (h1.trans hsts.symm)
            subst he1
            simp only [if_pos h1, if_neg h2]
            simp [List.mem_filter, h2, hsync s0 hs0 c0 hc0]
          · have he2 : c0 = ct := key_inj_of_nodup hndc hc0 hctm (h2.trans hctc.symm)
            subst he2
            simp only [if_neg h1, if_pos h2]
            simp [List.mem_filter, h1, hsync s0 hs0 c0 hc0]
          · simp only [if_neg h1, if_neg h2]
            exact hsync s0 hs0 c0 hc0
        · constructor
          · show ((setBy Student.sid
              (fun s => { s with classrooms := s.classrooms.filter (fun i => i ≠ cid) })
              sid db.students).map Student.sid).Nodup
            rw [setBy_eq_map _ hnds sid,
              map_sid_preserved db.students
                (fun s => { s with classrooms := s.classrooms.filter (fun i => i ≠ cid) })
                (fun s => rfl) (fun s => s.sid = sid)]
            exact hnds
          · show ((setBy Classroom.cid
              (fun c => { c with students := c.students.filter (fun i => i ≠ sid) })
              cid db.classrooms).map Classroom.cid).Nodup
            rw [setBy_eq_map _ hndc cid, List.map_map]
            have hcongr : ∀ c ∈ db.classrooms,
                (Classroom.cid ∘ fun a => if a.cid = cid then
                  { a with students := a.students.filter (fun i => i ≠ sid) } else a) c
                  = c.cid := by
              intro c _
              by_cases h : c.cid = cid
              · simp [h]
              · simp [h]
            rw [List.map_congr_left hcongr]
            exact hndc
      · simp [withdrawFromClassroom, hfs, hfc, hmem] at h

theorem sync_deleteClassroom_ok {db db' : DB} {cid : Nat}
    (hwf : WF db) (hsync : Sync db)
    (h : deleteClassroom db cid = .ok db') : Sync db' ∧ WF db' := by
  obtain ⟨hnds, hndc⟩ := hwf
  cases hfc : findClassroom db cid with
  | none => simp [deleteClassroom, hfc] at h
  | some ct =>
    have hok : deleteClassroom db cid = .ok (DB.mk db.users
        (setBy Teacher.tid
          (fun t => { t with classrooms := t.classrooms.filter (fun i => i ≠ cid) })
          ct.teacherId db.teachers)
        (db.students.map (fun s => if ct.students.contains s.sid then
            { s with classrooms := s.classrooms.filter (fun i => i ≠ cid) } else s))
        (db.classrooms.filter (fun c => c.cid ≠ cid))
        db.grades
        db.attendances) := by
      simp [deleteClassroom, setTeacher, hfc]
    rw [hok] at h
    injection h with h2
    subst h2
    constructor
    · intro s' hs' c' hc'
      have hcm := List.mem_filter.mp hc'
      have hcne : c'.cid ≠ cid := by simpa using hcm.2
      obtain ⟨s0, hs0, rfl⟩ := List.mem_map.mp hs'
      by_cases hin : ct.students.contains s0.sid = true
      · simp only [if_pos hin]
        simp [List.mem_filter, hcne, hsync s0 hs0 c' hcm.1]
      · simp only [if_neg hin]
        exact hsync s0 hs0 c' hcm.1
    · constructor
      · show ((db.students.map (fun s => if ct.students.contains s.sid then
          { s with classrooms := s.classrooms.filter (fun i => i ≠ cid) } else s)).map
            Student.sid).Nodup
        rw [map_sid_preserved db.students
          (fun s => { s with classrooms := s.classrooms.filter (fun i => i ≠ cid) })
          (fun s => rfl) (fun s => ct.students.contains s.sid = true)]
        exact hnds
      · exact hndc.sublist ((List.filter_sublist _).map Classroom.cid)

theorem sync_applyRelOp (db : DB) (op : RelOp) (hwf : WF db) (hsync : Sync db) :
    Sync (applyRelOp db op) ∧ WF (applyRelOp db op) := by
  cases op with
  | enroll s c =>
    cases h : enrollInClassroom db s c with
    | ok db' => simpa [applyRelOp, h] using sync_enroll_ok ⟨hwf.1, hwf.2⟩ hsync h
    | error e => simpa [applyRelOp, h] using And.intro hsync hwf
  | withdraw s c =>
    cases h : withdrawFromClassroom db s c with
    | ok db' => simpa [applyRelOp, h] using sync_withdraw_ok ⟨hwf.1, hwf.2⟩ hsync h
    | error e => simpa [applyRelOp, h] using And.intro hsync hwf
  | deleteClass c =>
    cases h : deleteClassroom db c with
    | ok db' => simpa [applyRelOp, h] using sync_deleteClassroom_ok ⟨hwf.1, hwf.2⟩ hsync h
    | error e => simpa [applyRelOp, h] using And.intro hsync hwf

/-- C2 (confirmed).  In a well-formed store (unique `_id`s, as the
document store guarantees) satisfying bidirectional consistency — for
every stored student and stored classroom,
`classroomId ∈ student.classrooms ↔ studentId ∈ classroom.students` —
any sequence of completed enroll, withdraw and deleteClassroom operations
(each run to completion; a failed call leaves the store unchanged)
preserves both consistency and well-formedness. -/
theorem bidirectional_consistency (db : DB) (ops : List RelOp)
    (hwf : WF db) (hsync : Sync db) :
    Sync (ops.foldl applyRelOp db) ∧ WF (ops.foldl applyRelOp db) := by
  induction ops generalizing db with
  | nil => exact ⟨hsync, hwf⟩
  | cons op rest ih =>
    obtain ⟨h1, h2⟩ := sync_applyRelOp db op hwf hsync
    exact ih (applyRelOp db op) h2 h1

/-- Witness for C2: running withdraw, re-enroll and deleteClassroom on
the consistent store `dbC2` keeps the student/classroom reference arrays
in sync. -/
theorem bidirectional_consistency_witness :
    Sync ([RelOp.withdraw 1 2, RelOp.enroll 1 2, RelOp.deleteClass 2].foldl
      applyRelOp dbC2) :=
  (bidirectional_consistency dbC2 [RelOp.withdraw 1 2, RelOp.enroll 1 2, RelOp.deleteClass 2]
    (by decide) (by decide)).1

end Elearn
